import Mathlib

/-!
Shallow embedding of the fixture dependency graph engine of
`pytest_deep_analysis` (files `checkers.py` and `utils.py`), covering:

* the Declaration Classifier (`is_test_function`, `is_pytest_fixture`,
  `get_fixture_decorator_args`, `get_fixture_dependencies`),
* Pass 1 fixture discovery (`_process_potential_fixture`),
* Pass 2 test analysis (`_check_test_function`, `_check_shadowed_fixture`),
* the finalization checks run by `close`
  (`_check_fixture_scope_dependencies`, `_check_unused_fixtures`,
  `_check_stateful_session_fixtures`) together with
  `compare_fixture_scopes` / `SCOPE_ORDER` from `utils.py`.

Python constants appearing as decorator keyword values are modelled by
`PyVal` (string / bool / int / None), since the source stores whatever
constant it finds (`keyword.value.value`) without further validation.
Syntax-tree nodes are modelled by the fields the engine actually reads:
name, decorator list, formal-parameter names, source file, and the
return expressions reachable in the body (`nodes_of_class(nodes.Return)`),
with the best-effort type inference of `_infer_mutable_type` recorded as
a boolean on each call-shaped return expression (inference is an external
collaborator; its verdict for a given expression is a fixed datum).
-/

/-- Python constant values as they occur in decorator keyword arguments. -/
inductive PyVal
  | str (s : String)
  | bool (b : Bool)
  | int (n : Int)
  | pynone
deriving DecidableEq, Repr

/-- Python truthiness for the constants we model (`if autouse:`). -/
def pyTruthy : PyVal → Bool
  | .str s => s ≠ ""
  | .bool b => b
  | .int n => n ≠ 0
  | .pynone => false

/-- The function position of a call-style decorator: `fixture(...)`,
`pytest.fixture(...)`, or anything else. -/
inductive CallFunc
  | fname (name : String)
  | fattr (attrname : String)
  | fother
deriving DecidableEq, Repr

/-- A decorator keyword argument's value: a literal constant
(`nodes.Const`) or any other expression. -/
inductive KwValue
  | const (v : PyVal)
  | nonConst
deriving DecidableEq, Repr

/-- A keyword argument of a call-style decorator (`nodes.Keyword`);
`arg` is `none` for `**kwargs`. -/
structure Keyword where
  arg : Option String
  value : KwValue
deriving DecidableEq, Repr

/-- A decorator node: bare name reference, qualified attribute
reference, call with keyword arguments, or any other expression. -/
inductive DecoratorNode
  | name (name : String)
  | attr (attrname : String)
  | call (func : CallFunc) (keywords : List Keyword)
  | other
deriving DecidableEq, Repr

/-- The shape of a value appearing in a `return` statement, as classified
by `_is_mutable_return`: mutable literals, tuple literals, calls (with the
qualified callee name from `get_call_qualname` and the verdict of
`_infer_mutable_type` on that call), or anything else. -/
inductive RetExpr
  | listLit
  | dictLit
  | setLit
  | tupleLit
  | call (qualname : Option String) (inferredMutable : Bool)
  | otherExpr
deriving DecidableEq, Repr

/-- A `return` statement node; `value` is `none` for a bare `return`. -/
structure ReturnNode where
  value : Option RetExpr
deriving DecidableEq, Repr

/-- The fields of an astroid `FunctionDef` read by the engine.
`nodeId` models CPython object identity (`id(node)`), `decorators`
is `none` when the function has no decorator list, `params` are the
names of `node.args.args` in order, `rootFile` is `node.root().file`,
and `returns` lists the `Return` nodes found recursively in the body
in document order. -/
structure FunctionDef where
  nodeId : Nat
  name : String
  decorators : Option (List DecoratorNode)
  params : List String
  rootFile : Option String
  returns : List ReturnNode
deriving DecidableEq, Repr

/-- `is_test_function` from `utils.py`: the name starts with `test_`
(string subscript check, taken on the character lists). -/
def is_test_function (node : FunctionDef) : Bool :=
  "test_".data.isPrefixOf node.name.data

/-- `is_pytest_fixture` from `utils.py`: some decorator is a bare
`fixture` name, an attribute ending in `.fixture`, or a call whose
function is either of those. -/
def is_pytest_fixture (node : FunctionDef) : Bool :=
  match node.decorators with
  | none => false
  | some decs =>
      decs.any fun dec =>
        match dec with
        | .name n => n = "fixture"
        | .attr a => a = "fixture"
        | .call f _ =>
            match f with
            | .fname n => n = "fixture"
            | .fattr a => a = "fixture"
            | .fother => false
        | .other => false

/-- `_is_fixture_decorator` from `utils.py`: only call-style decorators
whose function is named `fixture` (bare or attribute) qualify. -/
def is_fixture_call_func : CallFunc → Bool
  | .fname n => n = "fixture"
  | .fattr a => a = "fixture"
  | .fother => false

/-- `_extract_scope_from_keyword`: the value of a keyword literally named
`scope` when it is a constant; the Python function returns `None` both
when the keyword does not match and when the constant is `None` itself,
and the caller treats `None` as "not extracted". -/
def extract_scope_from_keyword (kw : Keyword) : Option PyVal :=
  if kw.arg = some "scope" then
    match kw.value with
    | .const v => if v = .pynone then none else some v
    | .nonConst => none
  else none

/-- `_extract_autouse_from_keyword`: same pattern for the keyword
literally named `autouse`. -/
def extract_autouse_from_keyword (kw : Keyword) : Option PyVal :=
  if kw.arg = some "autouse" then
    match kw.value with
    | .const v => if v = .pynone then none else some v
    | .nonConst => none
  else none

/-- The inner keyword loop of `get_fixture_decorator_args`: each keyword
may overwrite the `scope` component, then the `autouse` component. -/
def fixtureKwStep (acc : PyVal × PyVal) (kw : Keyword) : PyVal × PyVal :=
  let acc1 :=
    match extract_scope_from_keyword kw with
    | some v => (v, acc.2)
    | none => acc
  match extract_autouse_from_keyword kw with
  | some v => (acc1.1, v)
  | none => acc1

/-- The outer decorator loop of `get_fixture_decorator_args`: only
call-style `fixture` decorators contribute, via their keyword list. -/
def fixtureDecStep (acc : PyVal × PyVal) (dec : DecoratorNode) : PyVal × PyVal :=
  match dec with
  | .call f kws => if is_fixture_call_func f then kws.foldl fixtureKwStep acc else acc
  | _ => acc

/-- `get_fixture_decorator_args` from `utils.py`: fold the decorator list
starting from the defaults `("function", False)`. -/
def get_fixture_decorator_args (node : FunctionDef) : PyVal × PyVal :=
  match node.decorators with
  | none => (.str "function", .bool false)
  | some decs => decs.foldl fixtureDecStep (.str "function", .bool false)

/-- `get_fixture_dependencies` from `utils.py`: the formal parameter
names in order, skipping `request`, `self` and `cls` (an append loop in
the source). -/
def get_fixture_dependencies (node : FunctionDef) : List String :=
  node.params.foldl
    (fun deps a => if a = "request" ∨ a = "self" ∨ a = "cls" then deps else deps ++ [a]) []

/-- `SCOPE_ORDER` from `utils.py`. -/
def SCOPE_ORDER : List (String × Int) :=
  [("function", 1), ("class", 2), ("module", 3), ("package", 4), ("session", 5)]

/-- `SCOPE_ORDER.get(scope, 1)`: a non-string (or unrecognized string)
scope value falls back to the default rank 1. -/
def scope_order_get (v : PyVal) : Int :=
  match v with
  | .str s => (((SCOPE_ORDER.find? (fun p => p.1 = s)).map Prod.snd).getD 1)
  | _ => 1

/-- `compare_fixture_scopes` from `utils.py`: the difference of the two
ranks (negative, zero or positive). -/
def compare_fixture_scopes (scope1 scope2 : PyVal) : Int :=
  scope_order_get scope1 - scope_order_get scope2

/-- A message recorded through `add_message`: the message id and its
format arguments (source locations other than the declaring file paths
are not modelled). -/
structure Message where
  code : String
  args : List PyVal
deriving DecidableEq, Repr

/-- A `FixtureInfo` record from `checkers.py`: one discovered
fixture-like declaration. `used_by` is the growing consumer set,
modelled as a duplicate-free list in insertion order. -/
structure FixtureInfo where
  name : String
  scope : PyVal
  autouse : PyVal
  dependencies : List String
  file_path : String
  node : FunctionDef
  used_by : List String
deriving DecidableEq, Repr

/-- The fixture graph: an insertion-ordered dictionary from fixture name
to the list of `FixtureInfo` records sharing that name. -/
abbrev Graph : Type := List (String × List FixtureInfo)

/-- First-match association-list lookup (Python dict lookup; keys of a
dict built by the engine are unique). -/
def alistFind {α : Type} (k : String) : List (String × α) → Option α
  | [] => none
  | (k1, v) :: rest => if k1 = k then some v else alistFind k rest

/-- Rewrite the value stored under a key, leaving other keys unchanged. -/
def alistModify {α : Type} (k : String) (f : α → α) :
    List (String × α) → List (String × α)
  | [] => []
  | (k1, v) :: rest =>
      if k1 = k then (k1, f v) :: alistModify k f rest
      else (k1, v) :: alistModify k f rest

/-- Python dict assignment `d[k] = v`: overwrite if present, else append. -/
def alistSet {α : Type} (k : String) (v : α) (l : List (String × α)) :
    List (String × α) :=
  if (alistFind k l).isSome then alistModify k (fun _ => v) l else l ++ [(k, v)]

/-- Python `set.add`: append the element unless already present. -/
def setInsert (x : String) (l : List String) : List String :=
  if l.contains x then l else l ++ [x]

/-- The checker state mutated by the passes (fields of
`PytestDeepAnalysisChecker` that the fixture-graph engine reads or
writes; bookkeeping used only by elided test-body checks is omitted). -/
structure CheckerState where
  fixture_graph : Graph
  test_fixture_usage : List (String × List String)
  processed_fixtures : List Nat
  fixture_usage_locations : List (String × List String)
  messages : List Message
deriving DecidableEq, Repr

/-- The `FixtureInfo` built by `_process_potential_fixture` for a node:
metadata from the classifier, `<unknown>` fallback for a missing file,
and an empty consumer set. -/
def mkFixtureInfo (node : FunctionDef) : FixtureInfo :=
  let sa := get_fixture_decorator_args node
  { name := node.name
    scope := sa.1
    autouse := sa.2
    dependencies := get_fixture_dependencies node
    file_path := node.rootFile.getD "<unknown>"
    node := node
    used_by := [] }

/-- The graph insertion of `_process_potential_fixture`: create the key
with an empty list when absent, then append the record. -/
def graphAppend (fname : String) (info : FixtureInfo) (g : Graph) : Graph :=
  match alistFind fname g with
  | none => g ++ [(fname, [info])]
  | some _ => alistModify fname (fun l => l ++ [info]) g

/-- `_process_potential_fixture` from `checkers.py` (Pass 1): skip
non-fixtures, deduplicate by node identity, insert the record, and emit
the `pytest-fix-autouse` diagnostic eagerly when the extracted autouse
value is truthy. The file-local database-commit check performed on the
same node (`_check_fixture_db_commits`, also skipped on a duplicate
visit) is outside the fixture-graph engine and elided. -/
def process_potential_fixture (s : CheckerState) (node : FunctionDef) :
    CheckerState :=
  if ¬ is_pytest_fixture node then s
  else if s.processed_fixtures.contains node.nodeId then s
  else
    let info := mkFixtureInfo node
    { s with
      processed_fixtures := s.processed_fixtures ++ [node.nodeId]
      fixture_graph := graphAppend node.name info s.fixture_graph
      messages :=
        s.messages ++
          (if pyTruthy info.autouse then
            [{ code := "pytest-fix-autouse", args := [] }]
          else []) }

/-- `visit_module` (Pass 1): process every top-level function definition
of the module as a potential fixture. -/
def visit_module (s : CheckerState) (body : List FunctionDef) : CheckerState :=
  body.foldl process_potential_fixture s

/-- `dict.fromkeys` order-preserving deduplication used by
`_check_shadowed_fixture`: keep the first occurrence of each file path. -/
def uniqueFiles : List String → List String
  | [] => []
  | x :: rest => x :: (uniqueFiles rest).filter (fun y => y ≠ x)

/-- `_check_shadowed_fixture` from `checkers.py`: when more than one
record shares the parameter name, emit one `pytest-fix-shadowed` message
whose arguments are the name, the first declaring file, and (when the
deduplicated file list has more than one entry) the last declaring file,
else again the first. -/
def check_shadowed_fixture (g : Graph) (fixture_name : String) : List Message :=
  match alistFind fixture_name g with
  | none => []
  | some definitions =>
      if definitions.length > 1 then
        let files := definitions.map FixtureInfo.file_path
        let unique_files := uniqueFiles files
        [{ code := "pytest-fix-shadowed"
           args := [.str fixture_name, .str (files.headD ""),
                    .str (if unique_files.length > 1 then files.getLastD ""
                          else files.headD "")] }]
      else []

/-- The per-record consumer update of `_check_test_function`: when the
name is a key of the graph, add the test identifier to the `used_by`
set of every record stored under it. -/
def mark_used_by (test_name fixture_name : String) (g : Graph) : Graph :=
  match alistFind fixture_name g with
  | none => g
  | some _ =>
      alistModify fixture_name
        (fun l => l.map fun i => { i with used_by := setInsert test_name i.used_by }) g

/-- Python `f"\x7bnode.root().file\x7d::\x7bnode.name\x7d"`: a missing
file renders as the string `None`. -/
def test_identifier (node : FunctionDef) : String :=
  (match node.rootFile with
   | some f => f
   | none => "None") ++ "::" ++ node.name

/-- One iteration of the parameter loop of `_check_test_function`:
skip receivers, record the name, mark every matching record's consumer
set, record the usage location, then run the shadowing check against the
current graph. -/
def process_test_arg (test_name test_file : String)
    (acc : CheckerState × List String) (argname : String) :
    CheckerState × List String :=
  if argname = "self" ∨ argname = "cls" then acc
  else
    let s := acc.1
    let g := mark_used_by test_name argname s.fixture_graph
    let locs :=
      alistSet argname
        (setInsert test_file ((alistFind argname s.fixture_usage_locations).getD []))
        s.fixture_usage_locations
    ({ s with
        fixture_graph := g
        fixture_usage_locations := locs
        messages := s.messages ++ check_shadowed_fixture g argname },
     acc.2 ++ [argname])

/-- `_check_test_function` from `checkers.py` (Pass 2): early return on
an empty parameter list, then the parameter loop, then the assignment to
`test_fixture_usage` (the parallel `_test_fixture_params` bookkeeping,
read only by elided test-body checks, is omitted). -/
def check_test_function (s : CheckerState) (node : FunctionDef) : CheckerState :=
  if node.params.isEmpty then s
  else
    let test_name := test_identifier node
    let test_file := node.rootFile.getD "<unknown>"
    let result := node.params.foldl (process_test_arg test_name test_file) (s, [])
    { result.1 with
      test_fixture_usage := alistSet test_name result.2 result.1.test_fixture_usage }

/-- `visit_functiondef` from `checkers.py`, restricted to its
fixture-graph effect: test functions go through `_check_test_function`
(the in-test bookkeeping flags and the parametrize check it also touches
belong to elided test-body checks). -/
def visit_functiondef (s : CheckerState) (node : FunctionDef) : CheckerState :=
  if is_test_function node then check_test_function s node else s

/-- The body of the dependency loop of
`_check_fixture_scope_dependencies`: skip unresolvable names, compare
against the first record stored under the dependency name, and emit
`pytest-fix-invalid-scope` with the four naming arguments when the
depender's scope rank strictly exceeds the dependency's. -/
def invalid_scope_msgs (g : Graph) (fixture_name : String)
    (info : FixtureInfo) (dep_name : String) : List Message :=
  match alistFind dep_name g with
  | none => []
  | some deps =>
      match deps.head? with
      | none => []
      | some dep_info =>
          if compare_fixture_scopes info.scope dep_info.scope > 0 then
            [{ code := "pytest-fix-invalid-scope"
               args := [.str fixture_name, info.scope, .str dep_name,
                        dep_info.scope] }]
          else []

/-- `_check_fixture_scope_dependencies` from `checkers.py`. -/
def check_fixture_scope_dependencies (g : Graph) : List Message :=
  g.flatMap fun p =>
    p.2.flatMap fun info =>
      info.dependencies.flatMap fun dep_name =>
        invalid_scope_msgs g p.1 info dep_name

/-- The usage test of `_check_unused_fixtures`: a non-empty consumer set,
or the name occurring in the dependency list of any record in the graph
(the source's loop ranges over all records, the record itself included). -/
def fixture_is_used (g : Graph) (fixture_name : String) (info : FixtureInfo) :
    Bool :=
  decide (info.used_by.length > 0) ||
    g.any fun p => p.2.any fun other => other.dependencies.contains fixture_name

/-- The per-record body of `_check_unused_fixtures`: autouse records are
skipped, used records are skipped, the rest get `pytest-fix-unused`. -/
def unused_msgs (g : Graph) (fixture_name : String) (info : FixtureInfo) :
    List Message :=
  if pyTruthy info.autouse then []
  else if fixture_is_used g fixture_name info then []
  else [{ code := "pytest-fix-unused", args := [.str fixture_name] }]

/-- `_check_unused_fixtures` from `checkers.py`. -/
def check_unused_fixtures (g : Graph) : List Message :=
  g.flatMap fun p => p.2.flatMap fun info => unused_msgs g p.1 info

/-- `_is_mutable_return` from `checkers.py`: mutable literals qualify;
calls qualify when the qualified callee name is `list`, `dict` or `set`,
or when `_infer_mutable_type` infers a mutable builtin aggregate; all
other shapes (tuple literals included) do not. -/
def is_mutable_return : RetExpr → Bool
  | .listLit => true
  | .dictLit => true
  | .setLit => true
  | .call qualname inferredMutable =>
      (qualname = some "list" || qualname = some "dict" || qualname = some "set")
        || inferredMutable
  | .tupleLit => false
  | .otherExpr => false

/-- The return-statement loop of `_check_stateful_session_fixtures`:
scan the declaration's return nodes in order and emit
`pytest-fix-stateful-session` for the first one whose value is present
and mutable, stopping there. -/
def scan_returns (fixture_name : String) : List ReturnNode → List Message
  | [] => []
  | r :: rest =>
      match r.value with
      | some v =>
          if is_mutable_return v then
            [{ code := "pytest-fix-stateful-session", args := [.str fixture_name] }]
          else scan_returns fixture_name rest
      | none => scan_returns fixture_name rest

/-- The per-record body of `_check_stateful_session_fixtures`: records
whose scope is not the string `session` are skipped. -/
def stateful_session_msgs (fixture_name : String) (info : FixtureInfo) :
    List Message :=
  if info.scope = PyVal.str "session" then scan_returns fixture_name info.node.returns
  else []

/-- `_check_stateful_session_fixtures` from `checkers.py`. -/
def check_stateful_session_fixtures (g : Graph) : List Message :=
  g.flatMap fun p => p.2.flatMap fun info => stateful_session_msgs p.1 info

/-- The whole-graph diagnostics appended by one run of `close`, in the
source's order. The three remaining finalization checks
(`_check_fixtures_without_contracts`, `_check_overly_broad_scopes`,
`_check_xdist_fixture_io`) are likewise pure read-only emissions over the
same state and are elided, as is the task-file write, which does not
touch the checker state. -/
def close_diags (g : Graph) : List Message :=
  check_fixture_scope_dependencies g ++ check_unused_fixtures g ++
    check_stateful_session_fixtures g

/-- `close` from `checkers.py`: early return on an empty fixture graph,
else run the whole-graph checks, each appending its diagnostics; no
field of the state other than the message sink is written, and nothing
prevents a second invocation. -/
def closeChecker (s : CheckerState) : CheckerState :=
  if s.fixture_graph.isEmpty then s
  else { s with messages := s.messages ++ close_diags s.fixture_graph }

/-- Count the messages carrying a given message id. -/
def countMsgs (code : String) (l : List Message) : Nat :=
  (l.filter fun m => m.code = code).length

theorem alistFind_modify_self {α : Type} (k : String) (f : α → α)
    (l : List (String × α)) :
    alistFind k (alistModify k f l) = (alistFind k l).map f := by
  induction l with
  | nil => rfl
  | cons p rest ih =>
      obtain ⟨k1, v⟩ := p
      by_cases h1 : k1 = k
      · subst h1
        simp [alistModify, alistFind, ih]
      · simp [alistModify, alistFind, if_neg h1, ih]

theorem alistFind_modify_ne {α : Type} (k q : String) (f : α → α)
    (l : List (String × α)) (hq : q ≠ k) :
    alistFind q (alistModify k f l) = alistFind q l := by
  induction l with
  | nil => rfl
  | cons p rest ih =>
      obtain ⟨k1, v⟩ := p
      by_cases h1 : k1 = k
      · subst h1
        have h2 : ¬ k1 = q := fun hh => hq hh.symm
        simp [alistModify, alistFind, if_neg h2, ih]
      · simp [alistModify, alistFind, if_neg h1, ih]

theorem alistFind_append {α : Type} (k : String) (l1 l2 : List (String × α)) :
    alistFind k (l1 ++ l2) =
      (match alistFind k l1 with
       | some v => some v
       | none => alistFind k l2) := by
  induction l1 with
  | nil => simp [alistFind]
  | cons p rest ih =>
      obtain ⟨k1, v⟩ := p
      by_cases h1 : k1 = k <;> simp_all [alistFind]

theorem alistFind_graphAppend_self (k : String) (i : FixtureInfo) (g : Graph) :
    alistFind k (graphAppend k i g) = some ((alistFind k g).getD [] ++ [i]) := by
  unfold graphAppend
  cases h : alistFind k g with
  | none => simp [alistFind_append, h, alistFind]
  | some l => simp [alistFind_modify_self, h]

theorem alistFind_graphAppend_ne (k q : String) (i : FixtureInfo) (g : Graph)
    (hq : q ≠ k) : alistFind q (graphAppend k i g) = alistFind q g := by
  unfold graphAppend
  cases h : alistFind k g with
  | none =>
      rw [alistFind_append]
      cases h2 : alistFind q g with
      | none => simp [alistFind, h2, Ne.symm hq]
      | some l => simp [h2]
  | some l => exact alistFind_modify_ne k q _ g hq

theorem alistFind_mark (t fname q : String) (g : Graph) :
    alistFind q (mark_used_by t fname g) =
      if q = fname then
        (alistFind q g).map
          (List.map fun i => { i with used_by := setInsert t i.used_by })
      else alistFind q g := by
  unfold mark_used_by
  cases h : alistFind fname g with
  | none =>
      by_cases hq : q = fname
      · subst hq; simp [h]
      · simp [hq]
  | some l =>
      by_cases hq : q = fname
      · subst hq
        simpa using alistFind_modify_self q _ g
      · simp [hq, alistFind_modify_ne _ _ _ _ hq]

theorem mem_setInsert_self (x : String) (l : List String) : x ∈ setInsert x l := by
  unfold setInsert
  split
  · exact List.elem_iff.mp ‹_›
  · exact List.mem_append_right _ (List.mem_singleton.mpr rfl)

theorem mem_setInsert_of_mem (x y : String) (l : List String) (h : x ∈ l) :
    x ∈ setInsert y l := by
  unfold setInsert
  split
  · exact h
  · exact List.mem_append_left _ h

theorem mem_uniqueFiles (l : List String) (x : String) :
    x ∈ uniqueFiles l ↔ x ∈ l := by
  induction l with
  | nil => simp [uniqueFiles]
  | cons a rest ih =>
      by_cases hx : x = a <;> simp_all [uniqueFiles]

theorem uniqueFiles_all_eq (l : List String)
    (h : (uniqueFiles l).length ≤ 1) : ∀ x ∈ l, ∀ y ∈ l, x = y := by
  induction l with
  | nil => intro x hx; simp at hx
  | cons a rest ih =>
      intro x hx y hy
      have hfil : ((uniqueFiles rest).filter (fun y => y ≠ a)) = [] := by
        have hlen : ((uniqueFiles rest).filter (fun y => y ≠ a)).length = 0 := by
          have h2 := h
          simp only [uniqueFiles, List.length_cons] at h2
          omega
        exact List.length_eq_zero.mp hlen
      have hall : ∀ z ∈ rest, z = a := by
        intro z hz
        have hzu : z ∈ uniqueFiles rest := (mem_uniqueFiles rest z).mpr hz
        by_contra hne
        have hmem : z ∈ ((uniqueFiles rest).filter (fun y => y ≠ a)) :=
          List.mem_filter.mpr ⟨hzu, by simpa using hne⟩
        rw [hfil] at hmem
        simp at hmem
      have hx2 : x = a := by
        rcases List.mem_cons.mp hx with h1 | h1
        · exact h1
        · exact hall x h1
      have hy2 : y = a := by
        rcases List.mem_cons.mp hy with h1 | h1
        · exact h1
        · exact hall y h1
      rw [hx2, hy2]

theorem invalid_scope_msgs_resolved (g : Graph) (fixture_name : String)
    (info : FixtureInfo) (dep_name : String) (d0 : FixtureInfo)
    (ds : List FixtureInfo) (h : alistFind dep_name g = some (d0 :: ds)) :
    invalid_scope_msgs g fixture_name info dep_name =
      if compare_fixture_scopes info.scope d0.scope > 0 then
        [{ code := "pytest-fix-invalid-scope"
           args := [.str fixture_name, info.scope, .str dep_name, d0.scope] }]
      else [] := by
  unfold invalid_scope_msgs
  rw [h]
  rfl

theorem invalid_scope_msgs_unresolved (g : Graph) (fixture_name : String)
    (info : FixtureInfo) (dep_name : String)
    (h : alistFind dep_name g = none) :
    invalid_scope_msgs g fixture_name info dep_name = [] := by
  unfold invalid_scope_msgs
  rw [h]

theorem compare_fixture_scopes_pos_iff (a b : PyVal) :
    compare_fixture_scopes a b > 0 ↔ scope_order_get a > scope_order_get b := by
  unfold compare_fixture_scopes
  exact Int.sub_pos

/-- Claim C2: during finalization, for a record `R` and a name `D` in its
dependency list, the invalid-scope diagnostic for that pair is produced
exactly when `D` resolves in the graph and the rank of `R`'s scope
strictly exceeds the rank of the scope of the first record stored under
`D`, under the ranking `function(1) < class(2) < module(3) < package(4)
< session(5)`; an unresolved name produces no diagnostic, a non-positive
rank difference produces no diagnostic, and a firing diagnostic carries
exactly the arguments `R`, `R.scope`, `D`, `D.scope`. -/
theorem claim_C2_invalid_scope_iff (g : Graph) (fixture_name : String)
    (info : FixtureInfo) (dep_name : String) :
    (invalid_scope_msgs g fixture_name info dep_name ≠ [] ↔
      ∃ d0 ds, alistFind dep_name g = some (d0 :: ds) ∧
        scope_order_get info.scope > scope_order_get d0.scope)
    ∧ (alistFind dep_name g = none →
        invalid_scope_msgs g fixture_name info dep_name = [])
    ∧ (∀ d0 ds, alistFind dep_name g = some (d0 :: ds) →
        scope_order_get info.scope ≤ scope_order_get d0.scope →
        invalid_scope_msgs g fixture_name info dep_name = [])
    ∧ (∀ d0 ds, alistFind dep_name g = some (d0 :: ds) →
        scope_order_get info.scope > scope_order_get d0.scope →
        invalid_scope_msgs g fixture_name info dep_name =
          [{ code := "pytest-fix-invalid-scope"
             args := [.str fixture_name, info.scope, .str dep_name, d0.scope] }])
    ∧ scope_order_get (.str "function") = 1 ∧ scope_order_get (.str "class") = 2
    ∧ scope_order_get (.str "module") = 3 ∧ scope_order_get (.str "package") = 4
    ∧ scope_order_get (.str "session") = 5 := by
  refine ⟨?_, invalid_scope_msgs_unresolved g fixture_name info dep_name,
    ?_, ?_, by decide, by decide, by decide, by decide, by decide⟩
  · constructor
    · intro hne
      cases h : alistFind dep_name g with
      | none =>
          rw [invalid_scope_msgs_unresolved g fixture_name info dep_name h] at hne
          exact absurd rfl hne
      | some deps =>
          cases deps with
          | nil =>
              unfold invalid_scope_msgs at hne
              rw [h] at hne
              exact absurd rfl hne
          | cons d0 ds =>
              rw [invalid_scope_msgs_resolved g fixture_name info dep_name d0 ds h] at hne
              by_cases hc : compare_fixture_scopes info.scope d0.scope > 0
              · exact ⟨d0, ds, rfl, (compare_fixture_scopes_pos_iff _ _).mp hc⟩
              · rw [if_neg hc] at hne
                exact absurd rfl hne
    · rintro ⟨d0, ds, h, hgt⟩
      rw [invalid_scope_msgs_resolved g fixture_name info dep_name d0 ds h,
        if_pos ((compare_fixture_scopes_pos_iff _ _).mpr hgt)]
      simp
  · intro d0 ds h hle
    rw [invalid_scope_msgs_resolved g fixture_name info dep_name d0 ds h, if_neg]
    intro hc
    exact absurd ((compare_fixture_scopes_pos_iff _ _).mp hc) (not_lt.mpr hle)
  · intro d0 ds h hgt
    rw [invalid_scope_msgs_resolved g fixture_name info dep_name d0 ds h,
      if_pos ((compare_fixture_scopes_pos_iff _ _).mpr hgt)]

/-- A trivial syntax node reused by concrete witness states. -/
def plainNode : FunctionDef :=
  { nodeId := 0, name := "w", decorators := none, params := [],
    rootFile := none, returns := [] }

/-- Concrete function-scoped fixture record `req` declared in `a.py`. -/
def reqInfo : FixtureInfo :=
  { name := "req", scope := .str "function", autouse := .bool false,
    dependencies := [], file_path := "a.py", node := plainNode, used_by := [] }

/-- Concrete session-scoped fixture record `db` depending on `req`. -/
def dbInfo : FixtureInfo :=
  { name := "db", scope := .str "session", autouse := .bool false,
    dependencies := ["req"], file_path := "a.py", node := plainNode,
    used_by := [] }

/-- Concrete graph holding `db` and `req` (Scenario A of the spec). -/
def scopeGraph : Graph := [("db", [dbInfo]), ("req", [reqInfo])]

theorem claim_C2_witness :
    invalid_scope_msgs scopeGraph "db" dbInfo "req" =
      [{ code := "pytest-fix-invalid-scope"
         args := [.str "db", .str "session", .str "req", .str "function"] }] :=
  (claim_C2_invalid_scope_iff scopeGraph "db" dbInfo "req").2.2.2.1 reqInfo []
    (by decide) (by decide)

theorem fixture_is_used_false_iff (g : Graph) (fixture_name : String)
    (info : FixtureInfo) :
    fixture_is_used g fixture_name info = false ↔
      info.used_by = [] ∧
        ∀ p ∈ g, ∀ other ∈ p.2, fixture_name ∉ other.dependencies := by
  unfold fixture_is_used
  simp [List.any_eq_true, List.length_eq_zero, List.elem_iff]

/-- Claim C3: during finalization a record is reported unused exactly
when its autouse flag is not truthy, its consumer set is empty, and its
name occurs in no record's dependency list anywhere in the graph; in
particular a truthy autouse flag always suppresses the report. -/
theorem claim_C3_unused_iff (g : Graph) (fixture_name : String)
    (info : FixtureInfo) :
    (unused_msgs g fixture_name info ≠ [] ↔
      pyTruthy info.autouse = false ∧ info.used_by = [] ∧
        ∀ p ∈ g, ∀ other ∈ p.2, fixture_name ∉ other.dependencies)
    ∧ (pyTruthy info.autouse = true → unused_msgs g fixture_name info = [])
    ∧ (unused_msgs g fixture_name info ≠ [] →
        unused_msgs g fixture_name info =
          [{ code := "pytest-fix-unused", args := [.str fixture_name] }]) := by
  refine ⟨?_, ?_, ?_⟩
  · constructor
    · intro hne
      unfold unused_msgs at hne
      by_cases ha : pyTruthy info.autouse
      · rw [if_pos ha] at hne
        exact absurd rfl hne
      · by_cases hu : fixture_is_used g fixture_name info
        · rw [if_neg ha, if_pos hu] at hne
          exact absurd rfl hne
        · exact ⟨Bool.eq_false_iff.mpr ha,
            (fixture_is_used_false_iff g fixture_name info).mp
              (Bool.eq_false_iff.mpr hu)⟩
    · rintro ⟨h1, h2⟩
      unfold unused_msgs
      rw [if_neg (by rw [h1]; exact Bool.false_ne_true),
        if_neg (by
          rw [(fixture_is_used_false_iff g fixture_name info).mpr h2]
          exact Bool.false_ne_true)]
      simp
  · intro h
    unfold unused_msgs
    rw [if_pos h]
  · intro hne
    unfold unused_msgs at hne ⊢
    by_cases ha : pyTruthy info.autouse
    · rw [if_pos ha] at hne
      exact absurd rfl hne
    · by_cases hu : fixture_is_used g fixture_name info
      · rw [if_neg ha, if_pos hu] at hne
        exact absurd rfl hne
      · rw [if_neg ha, if_neg hu]

/-- Concrete never-consumed fixture record `cfg` (Scenario B). -/
def cfgInfo : FixtureInfo :=
  { name := "cfg", scope := .str "function", autouse := .bool false,
    dependencies := [], file_path := "a.py", node := plainNode, used_by := [] }

/-- Concrete autouse fixture record with no consumers. -/
def autoInfo : FixtureInfo :=
  { name := "auto_env", scope := .str "function", autouse := .bool true,
    dependencies := [], file_path := "a.py", node := plainNode, used_by := [] }

/-- Concrete graph holding `cfg` and `auto_env`. -/
def unusedGraph : Graph := [("cfg", [cfgInfo]), ("auto_env", [autoInfo])]

theorem claim_C3_witness :
    unused_msgs unusedGraph "cfg" cfgInfo ≠ [] ∧
      unused_msgs unusedGraph "auto_env" autoInfo = [] :=
  ⟨(claim_C3_unused_iff unusedGraph "cfg" cfgInfo).1.mpr
      (by refine ⟨by decide, by decide, ?_⟩; decide),
    (claim_C3_unused_iff unusedGraph "auto_env" autoInfo).2.1 (by decide)⟩

/-- The loop guard of `_check_stateful_session_fixtures` on one return
statement: `node.value and self._is_mutable_return(node.value)`. -/
def return_qualifies (r : ReturnNode) : Bool :=
  match r.value with
  | some v => is_mutable_return v
  | none => false

theorem scan_returns_ne_iff (fixture_name : String) (rets : List ReturnNode) :
    scan_returns fixture_name rets ≠ [] ↔ rets.any return_qualifies = true := by
  induction rets with
  | nil => simp [scan_returns]
  | cons r rest ih =>
      cases hv : r.value with
      | none => simp [scan_returns, hv, return_qualifies, ih]
      | some v =>
          by_cases hm : is_mutable_return v
          · simp [scan_returns, hv, return_qualifies, hm]
          · simp [scan_returns, hv, return_qualifies, hm, ih]

theorem scan_returns_len_le_one (fixture_name : String)
    (rets : List ReturnNode) : (scan_returns fixture_name rets).length ≤ 1 := by
  induction rets with
  | nil => simp [scan_returns]
  | cons r rest ih =>
      cases hv : r.value with
      | none => simpa [scan_returns, hv] using ih
      | some v =>
          by_cases hm : is_mutable_return v
          · simp [scan_returns, hv, hm]
          · simpa [scan_returns, hv, hm] using ih

theorem scan_returns_shape (fixture_name : String) (rets : List ReturnNode)
    (hne : scan_returns fixture_name rets ≠ []) :
    scan_returns fixture_name rets =
      [{ code := "pytest-fix-stateful-session", args := [.str fixture_name] }] := by
  induction rets with
  | nil => simp [scan_returns] at hne
  | cons r rest ih =>
      cases hv : r.value with
      | none =>
          rw [scan_returns, hv] at hne ⊢
          exact ih hne
      | some v =>
          by_cases hm : is_mutable_return v
          · rw [scan_returns, hv]
            simp [hm]
          · simp only [scan_returns, hv, if_neg hm] at hne ⊢
            exact ih hne

/-- Claim C5: the stateful-broad-scope diagnostic for a record fires
exactly when its scope is the string `session` and some return statement
in its body carries a value classified mutable by `_is_mutable_return`
(a list/dict/set literal, a call whose qualified name is `list`, `dict`
or `set`, or a call inferred to a mutable builtin aggregate); at most one
message is produced per record (the scan stops at the first hit), records
with any other scope produce nothing, and a record all of whose returned
values are tuple literals produces nothing. -/
theorem claim_C5_stateful_session (fixture_name : String) (info : FixtureInfo) :
    (stateful_session_msgs fixture_name info ≠ [] ↔
      info.scope = PyVal.str "session" ∧
        info.node.returns.any return_qualifies = true)
    ∧ (stateful_session_msgs fixture_name info).length ≤ 1
    ∧ (info.scope ≠ PyVal.str "session" →
        stateful_session_msgs fixture_name info = [])
    ∧ ((∀ r ∈ info.node.returns, ∀ v, r.value = some v → v = RetExpr.tupleLit) →
        stateful_session_msgs fixture_name info = [])
    ∧ is_mutable_return RetExpr.tupleLit = false
    ∧ is_mutable_return RetExpr.dictLit = true
    ∧ is_mutable_return (RetExpr.call (some "dict") false) = true
    ∧ is_mutable_return (RetExpr.call (some "factory") true) = true
    ∧ is_mutable_return (RetExpr.call (some "factory") false) = false := by
  refine ⟨?_, ?_, ?_, ?_, by decide, by decide, by decide, by decide, by decide⟩
  · constructor
    · intro hne
      unfold stateful_session_msgs at hne
      by_cases hs : info.scope = PyVal.str "session"
      · rw [if_pos hs] at hne
        exact ⟨hs, (scan_returns_ne_iff fixture_name info.node.returns).mp hne⟩
      · rw [if_neg hs] at hne
        exact absurd rfl hne
    · rintro ⟨hs, hany⟩
      unfold stateful_session_msgs
      rw [if_pos hs]
      exact (scan_returns_ne_iff fixture_name info.node.returns).mpr hany
  · unfold stateful_session_msgs
    by_cases hs : info.scope = PyVal.str "session"
    · rw [if_pos hs]
      exact scan_returns_len_le_one fixture_name info.node.returns
    · rw [if_neg hs]
      simp
  · intro hs
    unfold stateful_session_msgs
    rw [if_neg hs]
  · intro hall
    unfold stateful_session_msgs
    by_cases hs : info.scope = PyVal.str "session"
    · rw [if_pos hs]
      by_contra hne
      have hany := (scan_returns_ne_iff fixture_name info.node.returns).mp hne
      obtain ⟨r, hr, hq⟩ := List.any_eq_true.mp hany
      unfold return_qualifies at hq
      cases hv : r.value with
      | none => rw [hv] at hq; exact Bool.false_ne_true hq
      | some v =>
          rw [hv] at hq
          have := hall r hr v hv
          rw [this] at hq
          exact Bool.false_ne_true hq
    · rw [if_neg hs]

/-- Concrete session-scoped fixture `cache` whose body is `return dict()`
via a dict literal (Scenario D). -/
def cacheNode : FunctionDef :=
  { nodeId := 10, name := "cache", decorators := none, params := [],
    rootFile := some "a.py", returns := [{ value := some RetExpr.dictLit }] }

/-- Record for `cache` at session scope. -/
def cacheInfo : FixtureInfo :=
  { name := "cache", scope := .str "session", autouse := .bool false,
    dependencies := [], file_path := "a.py", node := cacheNode, used_by := [] }

/-- Concrete session-scoped fixture `value` whose body is `return (1, 2)`
(Scenario D). -/
def tupleNode : FunctionDef :=
  { nodeId := 11, name := "value", decorators := none, params := [],
    rootFile := some "a.py", returns := [{ value := some RetExpr.tupleLit }] }

/-- Record for `value` at session scope. -/
def tupleInfo : FixtureInfo :=
  { name := "value", scope := .str "session", autouse := .bool false,
    dependencies := [], file_path := "a.py", node := tupleNode, used_by := [] }

theorem claim_C5_witness :
    stateful_session_msgs "cache" cacheInfo ≠ [] ∧
      stateful_session_msgs "value" tupleInfo = [] ∧
      stateful_session_msgs "cache" { cacheInfo with scope := .str "function" } = [] :=
  ⟨(claim_C5_stateful_session "cache" cacheInfo).1.mpr ⟨by decide, by decide⟩,
    (claim_C5_stateful_session "value" tupleInfo).2.2.2.1
      (by
        intro r hr v hv
        have hr2 : r = { value := some RetExpr.tupleLit } := by
          simpa [tupleInfo, tupleNode] using hr
        rw [hr2] at hv
        exact (Option.some.inj hv).symm),
    (claim_C5_stateful_session "cache"
        { cacheInfo with scope := .str "function" }).2.2.1 (by decide)⟩

/-- Claim C10: `SCOPE_ORDER.get(scope, 1)` sends every unrecognized scope
string to rank 1, the rank of `function`; consequently, substituting an
unrecognized scope string for `function` changes no outcome of
`compare_fixture_scopes`, and in the invalid-scope check such a record
fires exactly as a function-scoped one would, both as the depending
record and as the first record resolved for a dependency name. -/
theorem claim_C10_unrecognized_scope (sc : String)
    (h : ¬(sc = "function" ∨ sc = "class" ∨ sc = "module" ∨
      sc = "package" ∨ sc = "session")) :
    scope_order_get (.str sc) = 1
    ∧ scope_order_get (.str sc) = scope_order_get (.str "function")
    ∧ (∀ t, compare_fixture_scopes (.str sc) t =
        compare_fixture_scopes (.str "function") t)
    ∧ (∀ t, compare_fixture_scopes t (.str sc) =
        compare_fixture_scopes t (.str "function"))
    ∧ (∀ (g : Graph) (fixture_name dep_name : String) (info : FixtureInfo),
        invalid_scope_msgs g fixture_name { info with scope := .str sc } dep_name ≠ []
          ↔ invalid_scope_msgs g fixture_name { info with scope := .str "function" }
              dep_name ≠ [])
    ∧ (∀ (g : Graph) (fixture_name dep_name : String) (info d0 : FixtureInfo)
        (ds : List FixtureInfo),
        alistFind dep_name g = some ({ d0 with scope := .str sc } :: ds) →
        (invalid_scope_msgs g fixture_name info dep_name ≠ [] ↔
          scope_order_get info.scope > 1)) := by
  push_neg at h
  obtain ⟨h1, h2, h3, h4, h5⟩ := h
  have hrank : scope_order_get (.str sc) = 1 := by
    simp [scope_order_get, SCOPE_ORDER, List.find?_cons, List.find?_nil,
      Ne.symm h1, Ne.symm h2, Ne.symm h3, Ne.symm h4, Ne.symm h5]
  have hfun : scope_order_get (.str "function") = 1 := by decide
  refine ⟨hrank, by rw [hrank, hfun], ?_, ?_, ?_, ?_⟩
  · intro t
    unfold compare_fixture_scopes
    rw [hrank, hfun]
  · intro t
    unfold compare_fixture_scopes
    rw [hrank, hfun]
  · intro g fixture_name dep_name info
    cases hf : alistFind dep_name g with
    | none =>
        rw [invalid_scope_msgs_unresolved g fixture_name _ dep_name hf,
          invalid_scope_msgs_unresolved g fixture_name _ dep_name hf]
    | some deps =>
        cases deps with
        | nil =>
            constructor
            · intro hne
              unfold invalid_scope_msgs at hne
              rw [hf] at hne
              exact absurd rfl hne
            · intro hne
              unfold invalid_scope_msgs at hne
              rw [hf] at hne
              exact absurd rfl hne
        | cons d0 ds =>
            rw [invalid_scope_msgs_resolved g fixture_name _ dep_name d0 ds hf,
              invalid_scope_msgs_resolved g fixture_name _ dep_name d0 ds hf]
            have hcmp :
                compare_fixture_scopes (PyVal.str sc) d0.scope =
                  compare_fixture_scopes (PyVal.str "function") d0.scope := by
              unfold compare_fixture_scopes
              rw [hrank, hfun]
            by_cases hc : compare_fixture_scopes (PyVal.str "function") d0.scope > 0
            · rw [if_pos hc, if_pos (by rw [hcmp]; exact hc)]
              simp
            · rw [if_neg hc, if_neg (by rw [hcmp]; exact hc)]
  · intro g fixture_name dep_name info d0 ds hf
    rw [invalid_scope_msgs_resolved g fixture_name info dep_name _ ds hf]
    by_cases hc : compare_fixture_scopes info.scope (PyVal.str sc) > 0
    · rw [if_pos hc]
      simp only [ne_eq, List.cons_ne_self]
      constructor
      · intro _
        have := (compare_fixture_scopes_pos_iff _ _).mp hc
        rw [hrank] at this
        exact this
      · intro _
        simp
    · rw [if_neg hc]
      constructor
      · intro hne
        exact absurd rfl hne
      · intro hgt
        exfalso
        apply hc
        apply (compare_fixture_scopes_pos_iff _ _).mpr
        rw [hrank]
        exact hgt

theorem claim_C10_witness :
    scope_order_get (.str "banana") = 1 ∧
      compare_fixture_scopes (.str "session") (.str "banana") =
        compare_fixture_scopes (.str "session") (.str "function") :=
  ⟨(claim_C10_unrecognized_scope "banana" (by decide)).1,
    (claim_C10_unrecognized_scope "banana" (by decide)).2.2.2.1 (.str "session")⟩

/-- Last element of a list of constants, with a default: the value left
in an accumulator that each list element overwrites. -/
def lastD : List PyVal → PyVal → PyVal
  | [], d => d
  | x :: rest, _ => lastD rest x

/-- The literal `scope` keyword values one decorator contributes: only a
call-style `fixture` decorator contributes, via its keyword list. -/
def dec_scope_candidates : DecoratorNode → List PyVal
  | .call f kws =>
      if is_fixture_call_func f then kws.filterMap extract_scope_from_keyword
      else []
  | _ => []

/-- The literal `autouse` keyword values one decorator contributes. -/
def dec_autouse_candidates : DecoratorNode → List PyVal
  | .call f kws =>
      if is_fixture_call_func f then kws.filterMap extract_autouse_from_keyword
      else []
  | _ => []

/-- The literal `scope` keyword values appearing on call-style `fixture`
decorators of the node, in decorator order. -/
def scope_candidates (node : FunctionDef) : List PyVal :=
  (node.decorators.getD []).flatMap dec_scope_candidates

/-- The literal `autouse` keyword values appearing on call-style
`fixture` decorators of the node, in decorator order. -/
def autouse_candidates (node : FunctionDef) : List PyVal :=
  (node.decorators.getD []).flatMap dec_autouse_candidates

theorem lastD_append (l1 l2 : List PyVal) (d : PyVal) :
    lastD (l1 ++ l2) d = lastD l2 (lastD l1 d) := by
  induction l1 generalizing d with
  | nil => rfl
  | cons x rest ih => exact ih x

theorem lastD_mem (l : List PyVal) (d : PyVal) :
    lastD l d = d ∨ lastD l d ∈ l := by
  induction l generalizing d with
  | nil => exact Or.inl rfl
  | cons x rest ih =>
      have hx : lastD (x :: rest) d = lastD rest x := rfl
      rcases ih x with h | h
      · right
        rw [hx, h]
        exact List.mem_cons_self x rest
      · right
        rw [hx]
        exact List.mem_cons_of_mem x h

theorem kwFold_fst (kws : List Keyword) (a b : PyVal) :
    (kws.foldl fixtureKwStep (a, b)).1 =
      lastD (kws.filterMap extract_scope_from_keyword) a := by
  induction kws generalizing a b with
  | nil => rfl
  | cons kw rest ih =>
      rw [List.foldl_cons, List.filterMap_cons]
      cases hs : extract_scope_from_keyword kw with
      | some v =>
          cases ha : extract_autouse_from_keyword kw with
          | some w =>
              have hstep : fixtureKwStep (a, b) kw = (v, w) := by
                simp [fixtureKwStep, hs, ha]
              rw [hstep]
              exact ih v w
          | none =>
              have hstep : fixtureKwStep (a, b) kw = (v, b) := by
                simp [fixtureKwStep, hs, ha]
              rw [hstep]
              exact ih v b
      | none =>
          cases ha : extract_autouse_from_keyword kw with
          | some w =>
              have hstep : fixtureKwStep (a, b) kw = (a, w) := by
                simp [fixtureKwStep, hs, ha]
              rw [hstep]
              exact ih a w
          | none =>
              have hstep : fixtureKwStep (a, b) kw = (a, b) := by
                simp [fixtureKwStep, hs, ha]
              rw [hstep]
              exact ih a b

theorem kwFold_snd (kws : List Keyword) (a b : PyVal) :
    (kws.foldl fixtureKwStep (a, b)).2 =
      lastD (kws.filterMap extract_autouse_from_keyword) b := by
  induction kws generalizing a b with
  | nil => rfl
  | cons kw rest ih =>
      rw [List.foldl_cons, List.filterMap_cons]
      cases hs : extract_scope_from_keyword kw with
      | some v =>
          cases ha : extract_autouse_from_keyword kw with
          | some w =>
              have hstep : fixtureKwStep (a, b) kw = (v, w) := by
                simp [fixtureKwStep, hs, ha]
              rw [hstep]
              exact ih v w
          | none =>
              have hstep : fixtureKwStep (a, b) kw = (v, b) := by
                simp [fixtureKwStep, hs, ha]
              rw [hstep]
              exact ih v b
      | none =>
          cases ha : extract_autouse_from_keyword kw with
          | some w =>
              have hstep : fixtureKwStep (a, b) kw = (a, w) := by
                simp [fixtureKwStep, hs, ha]
              rw [hstep]
              exact ih a w
          | none =>
              have hstep : fixtureKwStep (a, b) kw = (a, b) := by
                simp [fixtureKwStep, hs, ha]
              rw [hstep]
              exact ih a b

theorem decFold_fst (decs : List DecoratorNode) (a b : PyVal) :
    (decs.foldl fixtureDecStep (a, b)).1 =
      lastD (decs.flatMap dec_scope_candidates) a := by
  induction decs generalizing a b with
  | nil => rfl
  | cons dec rest ih =>
      rw [List.foldl_cons, List.flatMap_cons, lastD_append]
      cases dec with
      | name n => exact ih a b
      | attr at1 => exact ih a b
      | other => exact ih a b
      | call f kws =>
          by_cases hf : is_fixture_call_func f
          · have hstep : fixtureDecStep (a, b) (.call f kws) =
                kws.foldl fixtureKwStep (a, b) := by
              simp [fixtureDecStep, hf]
            have hcand : dec_scope_candidates (.call f kws) =
                kws.filterMap extract_scope_from_keyword := by
              simp [dec_scope_candidates, hf]
            rw [hstep, hcand, ← kwFold_fst kws a b]
            exact ih (kws.foldl fixtureKwStep (a, b)).1
              (kws.foldl fixtureKwStep (a, b)).2
          · have hstep : fixtureDecStep (a, b) (.call f kws) = (a, b) := by
              simp [fixtureDecStep, hf]
            have hcand : dec_scope_candidates (.call f kws) = [] := by
              simp [dec_scope_candidates, hf]
            rw [hstep, hcand]
            exact ih a b

theorem decFold_snd (decs : List DecoratorNode) (a b : PyVal) :
    (decs.foldl fixtureDecStep (a, b)).2 =
      lastD (decs.flatMap dec_autouse_candidates) b := by
  induction decs generalizing a b with
  | nil => rfl
  | cons dec rest ih =>
      rw [List.foldl_cons, List.flatMap_cons, lastD_append]
      cases dec with
      | name n => exact ih a b
      | attr at1 => exact ih a b
      | other => exact ih a b
      | call f kws =>
          by_cases hf : is_fixture_call_func f
          · have hstep : fixtureDecStep (a, b) (.call f kws) =
                kws.foldl fixtureKwStep (a, b) := by
              simp [fixtureDecStep, hf]
            have hcand : dec_autouse_candidates (.call f kws) =
                kws.filterMap extract_autouse_from_keyword := by
              simp [dec_autouse_candidates, hf]
            rw [hstep, hcand, ← kwFold_snd kws a b]
            exact ih (kws.foldl fixtureKwStep (a, b)).1
              (kws.foldl fixtureKwStep (a, b)).2
          · have hstep : fixtureDecStep (a, b) (.call f kws) = (a, b) := by
              simp [fixtureDecStep, hf]
            have hcand : dec_autouse_candidates (.call f kws) = [] := by
              simp [dec_autouse_candidates, hf]
            rw [hstep, hcand]
            exact ih a b

theorem get_args_fst (node : FunctionDef) :
    (get_fixture_decorator_args node).1 =
      lastD (scope_candidates node) (PyVal.str "function") := by
  unfold get_fixture_decorator_args scope_candidates
  cases node.decorators with
  | none => rfl
  | some decs => simpa using decFold_fst decs (.str "function") (.bool false)

theorem get_args_snd (node : FunctionDef) :
    (get_fixture_decorator_args node).2 =
      lastD (autouse_candidates node) (PyVal.bool false) := by
  unfold get_fixture_decorator_args autouse_candidates
  cases node.decorators with
  | none => rfl
  | some decs => simpa using decFold_snd decs (.str "function") (.bool false)

theorem depsFold_eq (params : List String) (acc : List String) :
    params.foldl
      (fun deps a =>
        if a = "request" ∨ a = "self" ∨ a = "cls" then deps else deps ++ [a]) acc
      = acc ++ params.filter
          (fun a => ¬(a = "request" ∨ a = "self" ∨ a = "cls")) := by
  induction params generalizing acc with
  | nil => simp
  | cons p rest ih =>
      rw [List.foldl_cons]
      by_cases hp : p = "request" ∨ p = "self" ∨ p = "cls"
      · rw [if_pos hp, ih]
        have hcond : ¬(¬p = "request" ∧ ¬p = "self" ∧ ¬p = "cls") := by tauto
        simp [List.filter_cons, hcond]
      · rw [if_neg hp, ih]
        have hcond : ¬p = "request" ∧ ¬p = "self" ∧ ¬p = "cls" := by tauto
        simp [List.filter_cons, hcond]

/-- Claim C7: the classifier's scope is the accumulated value of the
literal `scope` keywords on call-style `fixture` markers (the last such
literal, collapsing to the single keyword's value in the common case)
and `function` when no such literal exists — keyword absent, marker not
call-style, or value not a literal all leave the default; `autouse`
follows the same pattern with default `False`; and the extracted
dependency names are exactly the declaration's formal parameters in
order with `request`, `self` and `cls` removed. -/
theorem claim_C7_classifier (node : FunctionDef) :
    (get_fixture_decorator_args node).1 =
      lastD (scope_candidates node) (PyVal.str "function")
    ∧ (get_fixture_decorator_args node).2 =
      lastD (autouse_candidates node) (PyVal.bool false)
    ∧ (scope_candidates node = [] →
        (get_fixture_decorator_args node).1 = PyVal.str "function")
    ∧ (autouse_candidates node = [] →
        (get_fixture_decorator_args node).2 = PyVal.bool false)
    ∧ (∀ v, scope_candidates node = [v] →
        (get_fixture_decorator_args node).1 = v)
    ∧ get_fixture_dependencies node =
        node.params.filter
          (fun a => ¬(a = "request" ∨ a = "self" ∨ a = "cls")) := by
  refine ⟨get_args_fst node, get_args_snd node, ?_, ?_, ?_, ?_⟩
  · intro h
    rw [get_args_fst node, h]
    rfl
  · intro h
    rw [get_args_snd node, h]
    rfl
  · intro v h
    rw [get_args_fst node, h]
    rfl
  · unfold get_fixture_dependencies
    exact depsFold_eq node.params []

/-- Concrete fixture node `db_fx` declared as
`@pytest.fixture(scope="module", autouse=True)` with parameters
`(self, request, tmp)`. -/
def dbFxNode : FunctionDef :=
  { nodeId := 30, name := "db_fx",
    decorators := some [.call (.fattr "fixture")
      [{ arg := some "scope", value := .const (.str "module") },
       { arg := some "autouse", value := .const (.bool true) }]],
    params := ["self", "request", "tmp"], rootFile := some "a.py",
    returns := [] }

/-- Concrete fixture node declared with a bare `@pytest.fixture` marker. -/
def bareFxNode : FunctionDef :=
  { nodeId := 31, name := "bare_fx", decorators := some [.attr "fixture"],
    params := ["request", "db"], rootFile := some "a.py", returns := [] }

theorem claim_C7_witness :
    (get_fixture_decorator_args dbFxNode).1 = PyVal.str "module" ∧
      (get_fixture_decorator_args bareFxNode).1 = PyVal.str "function" ∧
      (get_fixture_decorator_args bareFxNode).2 = PyVal.bool false ∧
      get_fixture_dependencies dbFxNode = ["tmp"] :=
  ⟨(claim_C7_classifier dbFxNode).2.2.2.2.1 (PyVal.str "module") (by decide),
    (claim_C7_classifier bareFxNode).2.2.1 (by decide),
    (claim_C7_classifier bareFxNode).2.2.2.1 (by decide),
    by
      rw [(claim_C7_classifier dbFxNode).2.2.2.2.2]
      decide⟩

/-- The empty checker state, as created at run start. -/
def initState : CheckerState :=
  { fixture_graph := [], test_fixture_usage := [], processed_fixtures := [],
    fixture_usage_locations := [], messages := [] }

/-- Concrete fixture node carrying the unrecognized scope literal
`banana`. -/
def bananaNode : FunctionDef :=
  { nodeId := 32, name := "weird_fx",
    decorators := some [.call (.fattr "fixture")
      [{ arg := some "scope", value := .const (.str "banana") }]],
    params := [], rootFile := some "a.py", returns := [] }

/-- Claim C6 counterexample: Pass 1 inserts a record whose scope is the
string `banana`, which is none of the five ranked values — the extracted
scope is stored as found, not resolved to the five. -/
theorem claim_C6_counterexample :
    ((alistFind "weird_fx"
        (process_potential_fixture initState bananaNode).fixture_graph).getD
      []).map FixtureInfo.scope = [PyVal.str "banana"]
    ∧ PyVal.str "banana" ∉
        [PyVal.str "function", PyVal.str "class", PyVal.str "module",
         PyVal.str "package", PyVal.str "session"] := by
  constructor
  · rfl
  · decide

/-- Claim C6 amended: the record inserted by Pass 1 carries as scope
exactly the classifier's extraction — the last literal `scope` keyword
on the node's call-style fixture markers when one exists, whatever
constant that is, and the string `function` otherwise; the stored value
is therefore either `function` or one of the literals written in the
source, with no resolution to the five ranked values. -/
theorem claim_C6_amended (s : CheckerState) (node : FunctionDef)
    (hfix : is_pytest_fixture node = true)
    (hnew : s.processed_fixtures.contains node.nodeId = false) :
    alistFind node.name (process_potential_fixture s node).fixture_graph =
      some ((alistFind node.name s.fixture_graph).getD [] ++ [mkFixtureInfo node])
    ∧ (mkFixtureInfo node).scope =
        lastD (scope_candidates node) (PyVal.str "function")
    ∧ ((mkFixtureInfo node).scope = PyVal.str "function" ∨
        (mkFixtureInfo node).scope ∈ scope_candidates node) := by
  refine ⟨?_, get_args_fst node, ?_⟩
  · unfold process_potential_fixture
    rw [if_neg (by rw [hfix]; simp), if_neg (by rw [hnew]; simp)]
    exact alistFind_graphAppend_self node.name (mkFixtureInfo node) s.fixture_graph
  · have h := get_args_fst node
    have hm := lastD_mem (scope_candidates node) (PyVal.str "function")
    rcases hm with hm | hm
    · left
      rw [show (mkFixtureInfo node).scope = (get_fixture_decorator_args node).1
          from rfl, h, hm]
    · right
      rw [show (mkFixtureInfo node).scope = (get_fixture_decorator_args node).1
          from rfl, h]
      exact hm

theorem claim_C6_amended_witness :
    alistFind "weird_fx"
        (process_potential_fixture initState bananaNode).fixture_graph =
      some [mkFixtureInfo bananaNode]
    ∧ (mkFixtureInfo bananaNode).scope = PyVal.str "banana" :=
  ⟨(claim_C6_amended initState bananaNode (by decide) (by decide)).1,
    by
      have h := (claim_C6_amended initState bananaNode (by decide) (by decide)).2.1
      rw [h]
      decide⟩

/-- Claim C8: Pass 1 insertion deduplicates by node identity — processing
the same declaration node a second time is the identity on the checker
state (no duplicate record, no second eager diagnostic) — while two
distinct fixture nodes sharing a name are both appended under that name
in visitation order. -/
theorem claim_C8_insertion_idempotent :
    (∀ (s : CheckerState) (node : FunctionDef),
      process_potential_fixture (process_potential_fixture s node) node =
        process_potential_fixture s node)
    ∧ (∀ (s : CheckerState) (n1 n2 : FunctionDef),
        is_pytest_fixture n1 = true → is_pytest_fixture n2 = true →
        n1.name = n2.name →
        s.processed_fixtures.contains n1.nodeId = false →
        s.processed_fixtures.contains n2.nodeId = false →
        n1.nodeId ≠ n2.nodeId →
        alistFind n2.name
            (process_potential_fixture (process_potential_fixture s n1)
              n2).fixture_graph =
          some ((alistFind n1.name s.fixture_graph).getD [] ++
            [mkFixtureInfo n1, mkFixtureInfo n2])) := by
  constructor
  · intro s node
    by_cases hfix : is_pytest_fixture node
    · by_cases hproc : s.processed_fixtures.contains node.nodeId
      · have h1 : process_potential_fixture s node = s := by
          unfold process_potential_fixture
          rw [if_neg (by rw [hfix]; simp), if_pos hproc]
        rw [h1, h1]
      · have h1 : (process_potential_fixture s node).processed_fixtures =
            s.processed_fixtures ++ [node.nodeId] := by
          unfold process_potential_fixture
          rw [if_neg (by rw [hfix]; simp), if_neg hproc]
        have h2 : (process_potential_fixture s node).processed_fixtures.contains
            node.nodeId = true := by
          rw [h1]
          simp [List.contains_eq_any_beq, List.any_append]
        generalize hsg : process_potential_fixture s node = s2 at h2 ⊢
        unfold process_potential_fixture
        rw [if_neg (by rw [hfix]; simp), if_pos h2]
    · have h1 : process_potential_fixture s node = s := by
        unfold process_potential_fixture
        rw [if_pos (by rw [Bool.eq_false_iff.mpr hfix]; simp)]
      rw [h1, h1]
  · intro s n1 n2 hfix1 hfix2 hname hp1 hp2 hid
    have hstep1 : process_potential_fixture s n1 =
        { s with
          processed_fixtures := s.processed_fixtures ++ [n1.nodeId]
          fixture_graph := graphAppend n1.name (mkFixtureInfo n1) s.fixture_graph
          messages := s.messages ++
            (if pyTruthy (mkFixtureInfo n1).autouse then
              [{ code := "pytest-fix-autouse", args := [] }]
            else []) } := by
      unfold process_potential_fixture
      rw [if_neg (by rw [hfix1]; simp), if_neg (by rw [hp1]; simp)]
    have hp2b : (process_potential_fixture s n1).processed_fixtures.contains
        n2.nodeId = false := by
      rw [hstep1]
      simp only [List.contains_eq_any_beq, List.any_append]
      simp [hid.symm, List.contains_eq_any_beq] at hp2 ⊢
      intro x hx hcontra
      exact hp2 (by rw [hcontra]; exact hx)
    have hgraph1 : (process_potential_fixture s n1).fixture_graph =
        graphAppend n1.name (mkFixtureInfo n1) s.fixture_graph := by
      rw [hstep1]
    generalize hT : process_potential_fixture s n1 = T at hp2b hgraph1 ⊢
    have hgraph2 : (process_potential_fixture T n2).fixture_graph =
        graphAppend n2.name (mkFixtureInfo n2) T.fixture_graph := by
      unfold process_potential_fixture
      rw [if_neg (by rw [hfix2]; simp), if_neg (by rw [hp2b]; simp)]
    rw [hgraph2, alistFind_graphAppend_self, hgraph1, ← hname,
      alistFind_graphAppend_self]
    simp

/-- Concrete second declaration of the name `weird_fx` in another file. -/
def bananaNodeB : FunctionDef :=
  { nodeId := 33, name := "weird_fx",
    decorators := some [.call (.fattr "fixture") []],
    params := [], rootFile := some "b.py", returns := [] }

theorem claim_C8_witness :
    process_potential_fixture (process_potential_fixture initState bananaNode)
        bananaNode =
      process_potential_fixture initState bananaNode
    ∧ alistFind "weird_fx"
        (process_potential_fixture
          (process_potential_fixture initState bananaNode)
          bananaNodeB).fixture_graph =
      some [mkFixtureInfo bananaNode, mkFixtureInfo bananaNodeB] :=
  ⟨claim_C8_insertion_idempotent.1 initState bananaNode,
    by
      have h := claim_C8_insertion_idempotent.2 initState bananaNode bananaNodeB
        (by decide) (by decide) (by decide) (by decide) (by decide) (by decide)
      exact h⟩

/-- Concrete checker state at end of collection: one never-used fixture
`cfg` in the graph. -/
def closeState : CheckerState :=
  { initState with fixture_graph := [("cfg", [cfgInfo])] }

/-- Claim C9 counterexample: `close` carries no state-machine guard —
invoking it a second time on a finished state re-runs the whole-graph
checks and emits the unused-declaration diagnostic a second time, which
the claim asserts to be structurally impossible. -/
theorem claim_C9_counterexample :
    countMsgs "pytest-fix-unused"
        (closeChecker (closeChecker closeState)).messages = 2
    ∧ countMsgs "pytest-fix-unused" (closeChecker closeState).messages = 1 := by
  constructor
  · rfl
  · rfl

/-- Claim C9 amended: nothing prevents a second finalization — `close`
never mutates the fixture graph (or any field except the message sink),
and calling it again re-executes the checks and appends the identical
whole-graph diagnostics once more. -/
theorem claim_C9_amended (s : CheckerState) :
    (closeChecker s).fixture_graph = s.fixture_graph
    ∧ (closeChecker s).test_fixture_usage = s.test_fixture_usage
    ∧ (closeChecker s).processed_fixtures = s.processed_fixtures
    ∧ (closeChecker s).fixture_usage_locations = s.fixture_usage_locations
    ∧ (closeChecker (closeChecker s)).messages =
        s.messages ++ close_diags s.fixture_graph ++
          close_diags s.fixture_graph := by
  by_cases h : s.fixture_graph.isEmpty
  · have h1 : closeChecker s = s := by
      unfold closeChecker
      rw [if_pos h]
    have h2 : s.fixture_graph = [] := List.isEmpty_iff.mp h
    refine ⟨by rw [h1], by rw [h1], by rw [h1], by rw [h1], ?_⟩
    rw [h1, h1, h2]
    simp [close_diags, check_fixture_scope_dependencies, check_unused_fixtures,
      check_stateful_session_fixtures]
  · have h1 : closeChecker s =
        { s with messages := s.messages ++ close_diags s.fixture_graph } := by
      unfold closeChecker
      rw [if_neg h]
    have hg : (closeChecker s).fixture_graph = s.fixture_graph := by rw [h1]
    have hmsg : (closeChecker s).messages =
        s.messages ++ close_diags s.fixture_graph := by rw [h1]
    refine ⟨hg, by rw [h1], by rw [h1], by rw [h1], ?_⟩
    generalize hT : closeChecker s = T at hg hmsg ⊢
    have h3 : (closeChecker T).messages =
        T.messages ++ close_diags T.fixture_graph := by
      unfold closeChecker
      rw [if_neg (by rw [hg]; exact h)]
    rw [h3, hg, hmsg]

theorem mark_used_by_pred_preserved (tname t f : String) (p : String) (g : Graph)
    (h : ∀ infos, alistFind p g = some infos → ∀ i ∈ infos, tname ∈ i.used_by) :
    ∀ infos, alistFind p (mark_used_by t f g) = some infos →
      ∀ i ∈ infos, tname ∈ i.used_by := by
  intro infos hfind i hi
  rw [alistFind_mark] at hfind
  by_cases hpf : p = f
  · rw [if_pos hpf] at hfind
    cases hg : alistFind p g with
    | none => rw [hg] at hfind; simp at hfind
    | some old =>
        rw [hg] at hfind
        have hinfos : old.map
            (fun i => { i with used_by := setInsert t i.used_by }) = infos :=
          Option.some.inj hfind
        rw [← hinfos] at hi
        obtain ⟨i0, hi0, hmap⟩ := List.mem_map.mp hi
        rw [← hmap]
        exact mem_setInsert_of_mem tname t i0.used_by (h old hg i0 hi0)
  · rw [if_neg hpf] at hfind
    exact h infos hfind i hi

theorem mark_used_by_pred_establish (tname p : String) (g : Graph) :
    ∀ infos, alistFind p (mark_used_by tname p g) = some infos →
      ∀ i ∈ infos, tname ∈ i.used_by := by
  intro infos hfind i hi
  rw [alistFind_mark, if_pos rfl] at hfind
  cases hg : alistFind p g with
  | none => rw [hg] at hfind; simp at hfind
  | some old =>
      rw [hg] at hfind
      have hinfos : old.map
          (fun i => { i with used_by := setInsert tname i.used_by }) = infos :=
        Option.some.inj hfind
      rw [← hinfos] at hi
      obtain ⟨i0, hi0, hmap⟩ := List.mem_map.mp hi
      rw [← hmap]
      exact mem_setInsert_self tname i0.used_by

theorem process_test_arg_recv (tn tf : String) (acc : CheckerState × List String)
    (a : String) (ha : a = "self" ∨ a = "cls") :
    process_test_arg tn tf acc a = acc := by
  unfold process_test_arg
  rw [if_pos ha]

theorem process_test_arg_nonrecv (tn tf : String)
    (acc : CheckerState × List String) (a : String)
    (ha : ¬(a = "self" ∨ a = "cls")) :
    (process_test_arg tn tf acc a).1.fixture_graph =
        mark_used_by tn a acc.1.fixture_graph
    ∧ (process_test_arg tn tf acc a).1.messages =
        acc.1.messages ++
          check_shadowed_fixture (mark_used_by tn a acc.1.fixture_graph) a := by
  unfold process_test_arg
  rw [if_neg ha]
  exact ⟨rfl, rfl⟩

theorem fold_marks_all (tn tf p : String) (hrecv : ¬(p = "self" ∨ p = "cls")) :
    ∀ (args : List String) (acc : CheckerState × List String),
      (p ∈ args ∨
        (∀ infos, alistFind p acc.1.fixture_graph = some infos →
          ∀ i ∈ infos, tn ∈ i.used_by)) →
      ∀ infos,
        alistFind p ((args.foldl (process_test_arg tn tf) acc).1.fixture_graph) =
          some infos → ∀ i ∈ infos, tn ∈ i.used_by := by
  intro args
  induction args with
  | nil =>
      intro acc hyp
      rcases hyp with hyp | hyp
      · simp at hyp
      · simpa using hyp
  | cons a rest ih =>
      intro acc hyp
      rw [List.foldl_cons]
      by_cases ha : a = "self" ∨ a = "cls"
      · rw [process_test_arg_recv tn tf acc a ha]
        rcases hyp with hyp | hyp
        · rcases List.mem_cons.mp hyp with hpa | hpr
          · exact absurd (hpa ▸ ha) hrecv
          · exact ih acc (Or.inl hpr)
        · exact ih acc (Or.inr hyp)
      · have hgr := (process_test_arg_nonrecv tn tf acc a ha).1
        rcases hyp with hyp | hyp
        · rcases List.mem_cons.mp hyp with hpa | hpr
          · refine ih (process_test_arg tn tf acc a) (Or.inr ?_)
            rw [hgr, ← hpa]
            exact mark_used_by_pred_establish tn p acc.1.fixture_graph
          · exact ih (process_test_arg tn tf acc a) (Or.inl hpr)
        · refine ih (process_test_arg tn tf acc a) (Or.inr ?_)
          rw [hgr]
          exact mark_used_by_pred_preserved tn tn a p acc.1.fixture_graph hyp

/-- Claim C4: in Pass 2, for a test entry point and a non-receiver
parameter name that is a key of the fixture graph, the test identifier
is added to the consumer set of every record stored under that name —
after the visit, every record found under the parameter name contains
the test identifier. -/
theorem claim_C4_marks_every_record (s : CheckerState) (node : FunctionDef)
    (htest : is_test_function node = true) (p : String) (hp : p ∈ node.params)
    (hself : p ≠ "self") (hcls : p ≠ "cls") (infos : List FixtureInfo)
    (hfind : alistFind p (visit_functiondef s node).fixture_graph = some infos) :
    ∀ i ∈ infos, test_identifier node ∈ i.used_by := by
  have hrecv : ¬(p = "self" ∨ p = "cls") := fun h => Or.elim h hself hcls
  have hne : ¬node.params.isEmpty := by
    cases hpar : node.params with
    | nil => rw [hpar] at hp; simp at hp
    | cons x rest => simp [hpar]
  have hvisit : visit_functiondef s node = check_test_function s node := by
    unfold visit_functiondef
    rw [if_pos htest]
  rw [hvisit] at hfind
  have hgr : (check_test_function s node).fixture_graph =
      ((node.params.foldl (process_test_arg (test_identifier node)
        (node.rootFile.getD "<unknown>")) (s, [])).1).fixture_graph := by
    unfold check_test_function
    rw [if_neg hne]
  rw [hgr] at hfind
  exact fold_marks_all (test_identifier node) (node.rootFile.getD "<unknown>") p
    hrecv node.params (s, []) (Or.inl hp) infos hfind

/-- Concrete graph with two records sharing the name `shared`, declared
in `conftest_root.py` and `conftest_sub.py` (Scenario C). -/
def sharedInfoA : FixtureInfo :=
  { name := "shared", scope := .str "function", autouse := .bool false,
    dependencies := [], file_path := "conftest_root.py", node := plainNode,
    used_by := [] }

/-- Second record for the shadowed name `shared`. -/
def sharedInfoB : FixtureInfo :=
  { name := "shared", scope := .str "function", autouse := .bool false,
    dependencies := [], file_path := "conftest_sub.py", node := plainNode,
    used_by := [] }

/-- State after Pass 1 over the two conftest files. -/
def shadowState : CheckerState :=
  { initState with fixture_graph := [("shared", [sharedInfoA, sharedInfoB])] }

/-- First test consuming `shared`. -/
def testNode1 : FunctionDef :=
  { nodeId := 40, name := "test_one", decorators := none,
    params := ["shared"], rootFile := some "t1.py", returns := [] }

/-- Second test consuming `shared`. -/
def testNode2 : FunctionDef :=
  { nodeId := 41, name := "test_two", decorators := none,
    params := ["shared"], rootFile := some "t2.py", returns := [] }

theorem claim_C4_witness :
    "t1.py::test_one" ∈ FixtureInfo.used_by
      { sharedInfoB with used_by := ["t1.py::test_one"] } :=
  claim_C4_marks_every_record shadowState testNode1 (by decide) "shared"
    (by decide) (by decide) (by decide)
    [{ sharedInfoA with used_by := ["t1.py::test_one"] },
     { sharedInfoB with used_by := ["t1.py::test_one"] }] (by decide)
    { sharedInfoB with used_by := ["t1.py::test_one"] } (by decide)

theorem check_shadowed_fixture_none (g : Graph) (q : String)
    (h : alistFind q g = none) : check_shadowed_fixture g q = [] := by
  unfold check_shadowed_fixture
  rw [h]

theorem check_shadowed_fixture_some (g : Graph) (q : String)
    (defs : List FixtureInfo) (h : alistFind q g = some defs) :
    check_shadowed_fixture g q =
      (if defs.length > 1 then
        [{ code := "pytest-fix-shadowed"
           args := [.str q, .str ((defs.map FixtureInfo.file_path).headD ""),
                    .str (if (uniqueFiles
                            (defs.map FixtureInfo.file_path)).length > 1
                          then (defs.map FixtureInfo.file_path).getLastD ""
                          else (defs.map FixtureInfo.file_path).headD "")] }]
       else []) := by
  unfold check_shadowed_fixture
  rw [h]

theorem check_shadowed_mark_invariant (t f q : String) (g : Graph) :
    check_shadowed_fixture (mark_used_by t f g) q =
      check_shadowed_fixture g q := by
  cases hg : alistFind q g with
  | none =>
      have h2 : alistFind q (mark_used_by t f g) = none := by
        rw [alistFind_mark]
        by_cases hqf : q = f
        · rw [if_pos hqf, hg]
          rfl
        · rw [if_neg hqf]
          exact hg
      rw [check_shadowed_fixture_none _ _ h2, check_shadowed_fixture_none _ _ hg]
  | some defs =>
      by_cases hqf : q = f
      · have h2 : alistFind q (mark_used_by t f g) =
            some (defs.map
              (fun i => { i with used_by := setInsert t i.used_by })) := by
          rw [alistFind_mark, if_pos hqf, hg]
          rfl
        rw [check_shadowed_fixture_some _ _ _ h2,
          check_shadowed_fixture_some _ _ _ hg]
        have hlen : (defs.map
            (fun i => { i with used_by := setInsert t i.used_by })).length =
            defs.length := List.length_map _ _
        have hfiles : (defs.map
            (fun i => { i with used_by := setInsert t i.used_by })).map
              FixtureInfo.file_path =
            defs.map FixtureInfo.file_path := by
          rw [List.map_map]
          rfl
        rw [hlen, hfiles]
      · have h2 : alistFind q (mark_used_by t f g) = some defs := by
          rw [alistFind_mark, if_neg hqf]
          exact hg
        rw [check_shadowed_fixture_some _ _ _ h2,
          check_shadowed_fixture_some _ _ _ hg]

theorem fold_shadow_messages (tn tf : String) (g0 : Graph) :
    ∀ (args : List String) (acc : CheckerState × List String),
      (∀ q, check_shadowed_fixture acc.1.fixture_graph q =
        check_shadowed_fixture g0 q) →
      (args.foldl (process_test_arg tn tf) acc).1.messages =
        acc.1.messages ++
          (args.filter (fun a => ¬(a = "self" ∨ a = "cls"))).flatMap
            (fun p => check_shadowed_fixture g0 p) := by
  intro args
  induction args with
  | nil =>
      intro acc hQ
      simp
  | cons a rest ih =>
      intro acc hQ
      rw [List.foldl_cons, List.filter_cons]
      by_cases ha : a = "self" ∨ a = "cls"
      · rw [process_test_arg_recv tn tf acc a ha]
        have hcond : ¬(¬a = "self" ∧ ¬a = "cls") := by tauto
        rw [ih acc hQ]
        simp [hcond]
      · have hstep := process_test_arg_nonrecv tn tf acc a ha
        have hQ2 : ∀ q,
            check_shadowed_fixture
              (process_test_arg tn tf acc a).1.fixture_graph q =
            check_shadowed_fixture g0 q := by
          intro q
          rw [hstep.1, check_shadowed_mark_invariant]
          exact hQ q
        rw [ih (process_test_arg tn tf acc a) hQ2, hstep.2,
          check_shadowed_mark_invariant, hQ a]
        have hcond : ¬a = "self" ∧ ¬a = "cls" := by tauto
        simp [hcond]

theorem getLastD_all_eq (l : List String) (a : String)
    (h : ∀ x ∈ l, x = a) : l.getLastD a = a := by
  induction l generalizing a with
  | nil => rfl
  | cons b rest ih =>
      rw [List.getLastD_cons]
      have hb : b = a := h b (List.mem_cons_self b rest)
      have hr : ∀ x ∈ rest, x = b := fun x hx =>
        (h x (List.mem_cons_of_mem b hx)).trans hb.symm
      rw [ih b hr, hb]

theorem headD_eq_getLastD_all_eq (l : List String) (hne : l ≠ [])
    (h : ∀ x ∈ l, ∀ y ∈ l, x = y) : l.headD "" = l.getLastD "" := by
  cases l with
  | nil => exact absurd rfl hne
  | cons a rest =>
      show a = (a :: rest).getLastD ""
      rw [List.getLastD_cons]
      exact (getLastD_all_eq rest a (fun x hx =>
        h x (List.mem_cons_of_mem a hx) a (List.mem_cons_self a rest))).symm

theorem shadow_cond_eq_getLastD (files : List String) (hne : files ≠ []) :
    (if (uniqueFiles files).length > 1 then files.getLastD ""
     else files.headD "") = files.getLastD "" := by
  by_cases hu : (uniqueFiles files).length > 1
  · rw [if_pos hu]
  · rw [if_neg hu]
    exact headD_eq_getLastD_all_eq files hne
      (uniqueFiles_all_eq files (Nat.le_of_not_lt hu))

/-- Claim C1 counterexample: two tests consuming the shadowed name
`shared` produce TWO shadowed-declaration diagnostics, not one — the
diagnostic is emitted per consuming parameter occurrence, with no
per-name deduplication. Each emission does cite the first and last
declaring files. -/
theorem claim_C1_counterexample :
    countMsgs "pytest-fix-shadowed"
        (visit_functiondef (visit_functiondef shadowState testNode1)
          testNode2).messages = 2
    ∧ ¬ countMsgs "pytest-fix-shadowed"
        (visit_functiondef (visit_functiondef shadowState testNode1)
          testNode2).messages = 1
    ∧ (visit_functiondef (visit_functiondef shadowState testNode1)
          testNode2).messages =
        [{ code := "pytest-fix-shadowed"
           args := [.str "shared", .str "conftest_root.py",
                    .str "conftest_sub.py"] },
         { code := "pytest-fix-shadowed"
           args := [.str "shared", .str "conftest_root.py",
                    .str "conftest_sub.py"] }] := by
  refine ⟨rfl, by decide, rfl⟩

/-- Claim C1 amended: for every visit of a test entry point, one
shadowed-declaration diagnostic is appended per non-receiver parameter
occurrence whose name is stored with more than one record (hence once
per consuming test, not once per name overall), and each such diagnostic
cites the first and the last declaring file locations of the records
sharing the name. -/
theorem claim_C1_amended (s : CheckerState) (node : FunctionDef)
    (htest : is_test_function node = true) :
    (visit_functiondef s node).messages =
      s.messages ++
        (node.params.filter (fun a => ¬(a = "self" ∨ a = "cls"))).flatMap
          (fun p => check_shadowed_fixture s.fixture_graph p)
    ∧ (∀ q defs, alistFind q s.fixture_graph = some defs → defs.length > 1 →
        check_shadowed_fixture s.fixture_graph q =
          [{ code := "pytest-fix-shadowed"
             args := [.str q, .str ((defs.map FixtureInfo.file_path).headD ""),
                      .str ((defs.map FixtureInfo.file_path).getLastD "")] }])
    ∧ (∀ q defs, alistFind q s.fixture_graph = some defs → defs.length ≤ 1 →
        check_shadowed_fixture s.fixture_graph q = []) := by
  refine ⟨?_, ?_, ?_⟩
  · have hvisit : visit_functiondef s node = check_test_function s node := by
      unfold visit_functiondef
      rw [if_pos htest]
    rw [hvisit]
    by_cases hne : node.params.isEmpty
    · have hpar : node.params = [] := List.isEmpty_iff.mp hne
      have hch : check_test_function s node = s := by
        unfold check_test_function
        rw [if_pos hne]
      rw [hch, hpar]
      simp
    · have hmsg : (check_test_function s node).messages =
          ((node.params.foldl (process_test_arg (test_identifier node)
            (node.rootFile.getD "<unknown>")) (s, [])).1).messages := by
        unfold check_test_function
        rw [if_neg hne]
      rw [hmsg]
      exact fold_shadow_messages (test_identifier node)
        (node.rootFile.getD "<unknown>") s.fixture_graph node.params (s, [])
        (fun q => rfl)
  · intro q defs hfind hlen
    rw [check_shadowed_fixture_some _ _ _ hfind, if_pos hlen]
    have hne : defs.map FixtureInfo.file_path ≠ [] := by
      intro hh
      have : (defs.map FixtureInfo.file_path).length = 0 := by rw [hh]; rfl
      rw [List.length_map] at this
      omega
    rw [shadow_cond_eq_getLastD _ hne]
  · intro q defs hfind hlen
    rw [check_shadowed_fixture_some _ _ _ hfind, if_neg (by omega)]

theorem claim_C1_amended_witness :
    check_shadowed_fixture shadowState.fixture_graph "shared" =
      [{ code := "pytest-fix-shadowed"
         args := [.str "shared", .str "conftest_root.py",
                  .str "conftest_sub.py"] }] := by
  have h := (claim_C1_amended shadowState testNode1 (by decide)).2.1 "shared"
    [sharedInfoA, sharedInfoB] (by decide) (by decide)
  exact h
